import Mathlib

/-!
Verification of the leaffliction dataset-preparation scripts.

The development shallowly embeds the two Python source files:

* `Augmentation.py`: the `Augmentation` class of nine image transforms
  (translation, shear, flip, rotate, crop, skew, distortion, blur, contrast)
  and the directory-mode balancing driver of its `__main__` block.
* `split_dataset.py`: the training/validation split script.

Images are modelled as a structure carrying the two spatial dimensions and a
sampling function; machine `uint8` samples are `Nat` values with explicit
saturation where the code saturates.  Randomized parameters are passed
explicitly, together with predicates describing which values the underlying
`np.random` calls can produce; fallible operations return `Option`.
-/

/-- A decoded raster image: a `(rows, cols, 3)` array of unsigned 8-bit
samples (`numpy` `ndarray` of dtype `uint8`).  `px r c ch` is the sample at
row `r`, column `c`, colour channel `ch`; values of `px` outside the bounds
`r < rows`, `c < cols` are irrelevant to every statement below. -/
structure Image where
  rows : Nat
  cols : Nat
  px : Nat → Nat → Fin 3 → Nat

/-- Pixel-exact equality of two images: equal dimensions and equal samples at
every in-bounds position. -/
def ImageEq (a b : Image) : Prop :=
  a.rows = b.rows ∧ a.cols = b.cols ∧
    ∀ r < a.rows, ∀ c < a.cols, ∀ ch : Fin 3, a.px r c ch = b.px r c ch

instance (a b : Image) : Decidable (ImageEq a b) := by
  unfold ImageEq; infer_instance

/-- The numpy basic slice `img[r0:r1, c0:c1]` (with `0 ≤ r0 ≤ r1`,
`0 ≤ c0 ≤ c1`): the selected rows are `[r0, min r1 rows)`, so the result has
`min r1 rows - r0` rows (clipping, never an error), and likewise for
columns; the channel axis is untouched. -/
def slice2d (img : Image) (r0 r1 c0 c1 : Nat) : Image :=
  { rows := min r1 img.rows - r0
    cols := min c1 img.cols - c0
    px := fun r c ch => img.px (r0 + r) (c0 + c) ch }

/-- The fixed post-warp window `warped[50:150, 50:150]` used by translation,
shear, rotate, skew and distortion. -/
def postCrop (img : Image) : Image := slice2d img 50 150 50 150

/-- OpenCV `saturate_cast<uchar>`: clamp an integer intensity into the valid
`uint8` range `0..255` (no modular wrap-around). -/
def saturateCast (x : Int) : Nat := (min 255 (max 0 x)).toNat

/-- `Augmentation.contrast`: `cv2.addWeighted(img, 2, zeros, 0, -50)` computes
`saturate_cast<uchar>(2*src1 + 0*src2 + (-50))` per sample, where `src2` is
the all-zero array `np.zeros(img.shape, img.dtype)`. -/
def contrast (img : Image) : Image :=
  { rows := img.rows
    cols := img.cols
    px := fun r c ch => saturateCast (2 * (img.px r c ch : Int) + 0 * 0 - 50) }

/-- Modelled from the spec wording for the contrast transform: output equals
`2 × input − 50`, clamped to the valid sample range `0..255`. -/
def specContrastPixel (v : Nat) : Nat :=
  if 2 * (v : Int) - 50 < 0 then 0
  else if 255 < 2 * (v : Int) - 50 then 255
  else (2 * (v : Int) - 50).toNat

/-- The set of values `np.random.randint(low, high)` can return: the
half-open integer interval `[low, high)` (the upper bound is exclusive).
The call raises `ValueError` when `high ≤ low`, i.e. exactly when this
predicate is empty. -/
def randintPossible (low high v : Int) : Prop := low ≤ v ∧ v < high

instance (low high v : Int) : Decidable (randintPossible low high v) := by
  unfold randintPossible; infer_instance

/-- The values each of the two shifts of `Augmentation.translation` can take:
both matrix entries are drawn by `np.random.randint(-100, 100)`. -/
def translationShiftPossible (v : Int) : Prop := randintPossible (-100) 100 v

instance (v : Int) : Decidable (translationShiftPossible v) := by
  unfold translationShiftPossible; infer_instance

namespace Augmentation

/-- `Augmentation.flip`: `cv2.warpPerspective(img, M, (cols, rows))` with the
reflection matrix `M = [[-1,0,cols],[0,1,0],[0,0,1]]` for `axis = 0`, and
`M = [[1,0,0],[0,-1,rows],[0,0,1]]` otherwise.  `warpPerspective` inverts `M`
(both matrices here are their own inverse) and sets
`dst(x,y) = src(M⁻¹ (x,y))`; the source coordinates are exact integers
(`cols − x`, resp. `rows − y`), so the default bilinear interpolation reads a
single source pixel, and a coordinate outside `[0, cols)` (resp. `[0, rows)`)
is filled by the default `BORDER_CONSTANT` value 0.  The output size is the
requested `dsize = (cols, rows)`. -/
def flip (img : Image) (axis : Nat) : Image :=
  { rows := img.rows
    cols := img.cols
    px := fun r c ch =>
      if axis = 0 then
        if 1 ≤ c ∧ c ≤ img.cols then img.px r (img.cols - c) ch else 0
      else
        if 1 ≤ r ∧ r ≤ img.rows then img.px (img.rows - r) c ch else 0 }

/-- `Augmentation.crop`: draws `x = np.random.randint(0, cols-100)` and
`y = np.random.randint(0, rows-100)` and returns the slice
`img[y:y+100, x:x+100]`.  When `cols − 100 ≤ 0` or `rows − 100 ≤ 0` the
corresponding `randint` call has an empty range and raises `ValueError`
(modelled as `none`); the draws `x`, `y` are explicit arguments. -/
def crop (img : Image) (x y : Nat) : Option Image :=
  if img.cols ≤ 100 ∨ img.rows ≤ 100 then none
  else some (slice2d img y (y + 100) x (x + 100))

/-- The draws `Augmentation.crop` can make for an image that does not raise:
`x ∈ [0, cols−100)` and `y ∈ [0, rows−100)`. -/
def cropDrawPossible (img : Image) (x y : Nat) : Prop :=
  x < img.cols - 100 ∧ y < img.rows - 100

instance (img : Image) (x y : Nat) : Decidable (cropDrawPossible img x y) := by
  unfold cropDrawPossible; infer_instance

/-- The warp step of `Augmentation.translation`:
`cv2.warpPerspective(img, M, (cols, rows))` with the integer shift matrix
`M = [[1,0,tx],[0,1,ty],[0,0,1]]`.  The inverse map sends destination
`(x, y)` to source `(x − tx, y − ty)` — exact integers, so bilinear
interpolation reads one pixel, out-of-range coordinates give the
`BORDER_CONSTANT` fill 0 — and the output has the requested size
`(cols, rows)`. -/
def shiftWarp (img : Image) (tx ty : Int) : Image :=
  { rows := img.rows
    cols := img.cols
    px := fun r c ch =>
      if 0 ≤ (r : Int) - ty ∧ (r : Int) - ty < img.rows ∧
          0 ≤ (c : Int) - tx ∧ (c : Int) - tx < img.cols then
        img.px ((r : Int) - ty).toNat ((c : Int) - tx).toNat ch
      else 0 }

/-- `Augmentation.translation`: the shift warp followed by the fixed window
`[50:150, 50:150]`. -/
def translation (img : Image) (tx ty : Int) : Image :=
  postCrop (shiftWarp img tx ty)

/-- A warp through `cv2.warpAffine` / `cv2.warpPerspective` with
`dsize = (cols, rows)`: the result has exactly the dimensions of the input.
The matrices of rotate, shear, skew and distortion have non-integer
(floating-point) entries, so their interpolated sample values are abstracted
as an arbitrary sampling function `sample`; only the dimensions, which the
claims below are about, are fixed by the call. -/
def warpSameSize (img : Image) (sample : Nat → Nat → Fin 3 → Nat) : Image :=
  { rows := img.rows, cols := img.cols, px := sample }

/-- OpenCV border index reflection `BORDER_REFLECT_101` (the default border
of `cv2.blur`): coordinate `-1` maps to `1`, `n` maps to `n-2`, the edge
pixel itself is not repeated.  A single reflection step is modelled, which is
exact for every offset of magnitude at most 2 on a dimension `n ≥ 3` (on
smaller dimensions OpenCV iterates the reflection). -/
def reflect101 (n : Nat) (i : Int) : Nat :=
  if n ≤ 1 then 0
  else
    let j := if i < 0 then -i else i
    let k := if (n : Int) ≤ j then 2 * ((n : Int) - 1) - j else j
    k.toNat

/-- The 5×5 kernel offsets of `cv2.blur(img, (5, 5))` around the centred
anchor. -/
def kernelOffsets : List Int := [-2, -1, 0, 1, 2]

/-- Sum of the 5×5 neighbourhood of `(r, c)` with `BORDER_REFLECT_101`
indexing. -/
def boxSum (img : Image) (r c : Nat) (ch : Fin 3) : Nat :=
  kernelOffsets.foldl
    (fun a dr =>
      kernelOffsets.foldl
        (fun b dc =>
          b + img.px (reflect101 img.rows ((r : Int) + dr))
                (reflect101 img.cols ((c : Int) + dc)) ch)
        a)
    0

/-- `Augmentation.blur`: `cv2.blur(img, (5, 5), 0)`, the normalized 5×5 box
filter — each output sample is the neighbourhood mean `sum / 25` rounded to
the nearest integer (25 is odd, so no ties arise; `(2*s + 25) / 50` is that
rounding in integer arithmetic).  The call draws no random values and writes
an image of the same dimensions. -/
def blur (img : Image) : Image :=
  { rows := img.rows
    cols := img.cols
    px := fun r c ch => (2 * boxSum img r c ch + 25) / 50 }

/-- `Augmentation.rotate`: `cv2.warpAffine` with the rotation matrix
`cv2.getRotationMatrix2D((cols/2, rows/2), randint(-180,180), 1)` and
`dsize = (cols, rows)`, followed by the `[50:150, 50:150]` window. -/
def rotate (img : Image) (sample : Nat → Nat → Fin 3 → Nat) : Image :=
  postCrop (warpSameSize img sample)

set_option linter.unusedVariables false in
/-- `Augmentation.shear`: `cv2.warpPerspective` with a shear matrix whose
off-diagonal entry (row 0 or row 1 according to `axis`) is
`np.random.uniform(0.1, 0.2)` and `dsize = (cols, rows)`, followed by the
`[50:150, 50:150]` window. -/
def shear (img : Image) (axis : Nat) (sample : Nat → Nat → Fin 3 → Nat) :
    Image :=
  postCrop (warpSameSize img sample)

/-- `Augmentation.skew`: `cv2.warpAffine` with the affine map from three
fixed corners to three jittered corners (`randint(0, 30)` jitters) and
`dsize = (cols, rows)`, followed by the `[50:150, 50:150]` window. -/
def skew (img : Image) (sample : Nat → Nat → Fin 3 → Nat) : Image :=
  postCrop (warpSameSize img sample)

/-- `Augmentation.distortion`: `cv2.warpPerspective` with the perspective map
from four fixed corners to four jittered corners (`randint(0, 30)` jitters)
and `dsize = (cols, rows)`, followed by the `[50:150, 50:150]` window. -/
def distortion (img : Image) (sample : Nat → Nat → Fin 3 → Nat) : Image :=
  postCrop (warpSameSize img sample)

end Augmentation

open Augmentation

/-- C3: for every `uint8` sample, the contrast transform computes
`2×input − 50` saturated to `0..255`; the output sample is always in `0..255`
and for inputs `≥ 153` (where `2v−50` overflows 255) the output is the clamp
value 255, strictly above the value `(2v−50) mod 256` that wrap-around
arithmetic would give. -/
theorem c3_contrast_clamped (img : Image) (r c : Nat) (ch : Fin 3)
    (h : img.px r c ch ≤ 255) :
    (contrast img).px r c ch = specContrastPixel (img.px r c ch) ∧
    (contrast img).px r c ch ≤ 255 ∧
    (153 ≤ img.px r c ch →
      (contrast img).px r c ch = 255 ∧
        (2 * img.px r c ch - 50) % 256 < 255) := by
  unfold contrast specContrastPixel saturateCast
  simp only
  refine ⟨?_, ?_, fun h153 => ⟨?_, ?_⟩⟩ <;> first
    | (split_ifs <;> omega)
    | omega

/-- A constant all-200 test image. -/
def grayImg : Image := { rows := 4, cols := 4, px := fun _ _ _ => 200 }

/-- Witness for C3 at the concrete sample value 200: the output is
`saturate(350) = 255`, not the wrapped value `350 − 256 = 94`. -/
theorem c3_contrast_clamped_witness :
    (contrast grayImg).px 0 0 0 = specContrastPixel (grayImg.px 0 0 0) ∧
    (contrast grayImg).px 0 0 0 ≤ 255 ∧
    (153 ≤ grayImg.px 0 0 0 →
      (contrast grayImg).px 0 0 0 = 255 ∧
        (2 * grayImg.px 0 0 0 - 50) % 256 < 255) :=
  c3_contrast_clamped grayImg 0 0 0 (by decide)

/-- A 1×2 test image whose first column is the nonzero sample 7 and whose
second column is 3. -/
def rowImg : Image :=
  { rows := 1, cols := 2, px := fun _ c _ => if c = 0 then 7 else 3 }

/-- C2: flipping twice along axis 0 does NOT return the original image.  The
reflection matrix translates by `cols` rather than `cols − 1`, so destination
column 0 samples the out-of-bounds source coordinate `cols` and receives the
constant border fill 0; after a second flip, column 0 of the result is 0
while the original holds 7 there (the remaining columns do return to their
original values). -/
theorem c2_flip_not_involutive :
    (flip (flip rowImg 0) 0).px 0 0 0 = 0 ∧ rowImg.px 0 0 0 = 7 ∧
      ¬ ImageEq (flip (flip rowImg 0) 0) rowImg := by
  refine ⟨rfl, rfl, ?_⟩
  decide

/-- A 100×100 all-zero image: the smallest size the C4 claim admits. -/
def img100 : Image := { rows := 100, cols := 100, px := fun _ _ _ => 0 }

/-- C4 counterexample: on a 100×100 image the crop transform does not
succeed — `np.random.randint(0, cols-100)` is `randint(0, 0)`, whose range is
empty, so the call raises `ValueError` instead of returning a 100×100×3
image. -/
theorem c4_crop_counterexample :
    img100.rows = 100 ∧ img100.cols = 100 ∧
      ∀ x y : Nat, (crop img100 x y).isNone = true := by
  refine ⟨rfl, rfl, fun x y => ?_⟩
  rfl

/-- C4 (amended): for every image with height ≥ 101 and width ≥ 101 and
every possible draw of the random origin, the crop transform succeeds and
returns an image of shape exactly 100×100 (×3 channels, carried by the
sample type). -/
theorem c4_crop_shape (img : Image) (x y : Nat)
    (hr : 101 ≤ img.rows) (hc : 101 ≤ img.cols)
    (hdraw : cropDrawPossible img x y) :
    (crop img x y).map (fun out => (out.rows, out.cols)) = some (100, 100) := by
  obtain ⟨hx, hy⟩ := hdraw
  unfold Augmentation.crop slice2d
  rw [if_neg (by omega)]
  dsimp only [Option.map_some']
  have h1 : min (y + 100) img.rows - y = 100 := by omega
  have h2 : min (x + 100) img.cols - x = 100 := by omega
  rw [h1, h2]

/-- A 101×101 all-zero image. -/
def img101 : Image := { rows := 101, cols := 101, px := fun _ _ _ => 0 }

/-- Witness for the amended C4 at a concrete 101×101 image and the draw
`(x, y) = (0, 0)`. -/
theorem c4_crop_shape_witness :
    (crop img101 0 0).map (fun out => (out.rows, out.cols)) = some (100, 100) :=
  c4_crop_shape img101 0 0 (by decide) (by decide) (by decide)

/-- C5: on an image of height ≥ 150 and width ≥ 150, translation (for any
integer shifts, in particular all possible `randint(-100,100)` draws),
rotate, shear, skew and distortion (for any warp sampling, i.e. any random
parameter draw) all return images of shape exactly 100×100 (×3 channels),
cut by the fixed window `[50:150, 50:150]` after the warp. -/
theorem c5_warp_crop_shape (img : Image)
    (tx ty : Int) (axis : Nat) (s1 s2 s3 s4 : Nat → Nat → Fin 3 → Nat)
    (hr : 150 ≤ img.rows) (hc : 150 ≤ img.cols) :
    ((translation img tx ty).rows = 100 ∧ (translation img tx ty).cols = 100) ∧
    ((rotate img s1).rows = 100 ∧ (rotate img s1).cols = 100) ∧
    ((shear img axis s2).rows = 100 ∧ (shear img axis s2).cols = 100) ∧
    ((skew img s3).rows = 100 ∧ (skew img s3).cols = 100) ∧
    ((distortion img s4).rows = 100 ∧ (distortion img s4).cols = 100) := by
  unfold Augmentation.translation Augmentation.rotate Augmentation.shear
      Augmentation.skew Augmentation.distortion postCrop slice2d
      Augmentation.shiftWarp Augmentation.warpSameSize
  dsimp only
  omega

/-- A 150×150 all-zero image. -/
def img150 : Image := { rows := 150, cols := 150, px := fun _ _ _ => 0 }

/-- Witness for C5 at a concrete 150×150 image, shifts `(0, 0)`, axis 0 and
the all-zero warp sampling. -/
theorem c5_warp_crop_shape_witness :
    ((translation img150 0 0).rows = 100 ∧ (translation img150 0 0).cols = 100) ∧
    ((rotate img150 img150.px).rows = 100 ∧ (rotate img150 img150.px).cols = 100) ∧
    ((shear img150 0 img150.px).rows = 100 ∧ (shear img150 0 img150.px).cols = 100) ∧
    ((skew img150 img150.px).rows = 100 ∧ (skew img150 img150.px).cols = 100) ∧
    ((distortion img150 img150.px).rows = 100 ∧
      (distortion img150 img150.px).cols = 100) :=
  c5_warp_crop_shape img150 0 0 0 img150.px img150.px img150.px img150.px
    (by decide) (by decide)

/-- C7 counterexample: the value 100 lies in the closed interval
`[-100, 100]` claimed for the translation shifts, but it is not a possible
draw of `np.random.randint(-100, 100)`, whose upper bound is exclusive. -/
theorem c7_shift_counterexample :
    ((-100 : Int) ≤ 100 ∧ (100 : Int) ≤ 100) ∧
      ¬ translationShiftPossible 100 := by
  decide

/-- C7 (amended): each translation shift is a possible draw exactly when it
lies in the closed interval `[-100, 99]`; in particular every value of that
interval can be drawn. -/
theorem c7_shift_range (v : Int) :
    translationShiftPossible v ↔ (-100 ≤ v ∧ v ≤ 99) := by
  unfold translationShiftPossible randintPossible
  omega

set_option linter.unusedVariables false in
/-- A run of `Augmentation.blur` given the state of the random stream: the
method body contains no `np.random` call, so the stream is ignored. -/
def blurRun (img : Image) (draws : List Int) : Image := Augmentation.blur img

set_option linter.unusedVariables false in
/-- A run of `Augmentation.contrast` given the state of the random stream:
the method body contains no `np.random` call, so the stream is ignored. -/
def contrastRun (img : Image) (draws : List Int) : Image := contrast img

/-- C9: blur and contrast are deterministic — two runs on the same input
image, under arbitrarily different states of the random stream, produce
identical outputs, because neither method draws a random parameter. -/
theorem c9_blur_contrast_deterministic (img : Image) (d1 d2 : List Int) :
    blurRun img d1 = blurRun img d2 ∧ contrastRun img d1 = contrastRun img d2 :=
  ⟨rfl, rfl⟩

/-- Outcome of a run of the `Augmentation.py` entry point: the process exit
code and whether an error was written through `logger.error`. -/
structure MainOutcome where
  exitCode : Nat
  loggedError : Bool
deriving DecidableEq

/-- The `__main__` block of `Augmentation.py`, abstracted over the
filesystem checks and the fate of the processing body.  Lines 250–255: when
`args.path` is neither a directory nor a file, `FileNotFoundError` is raised,
caught, logged via `logger.error`, and the process exits with status 1.
Otherwise the processing body runs outside any try/except: `processingOk`
records whether it completes; an uncaught exception (for example
`cv2.imread` returning `None` for an existing but undecodable file, after
which `None.shape` raises `AttributeError`) terminates the interpreter with
the nonzero status 1 and no `logger.error` call, while normal completion
exits with status 0. -/
def mainAug (isDir isFile processingOk : Bool) : MainOutcome :=
  if !isDir && !isFile then { exitCode := 1, loggedError := true }
  else if processingOk then { exitCode := 0, loggedError := false }
  else { exitCode := 1, loggedError := false }

/-- C8 counterexample: an existing file whose processing raises (an
undecodable image) makes the entry point exit with status 1, not 0 as the
claim states for every existing path. -/
theorem c8_cli_counterexample :
    (mainAug false true false).exitCode = 1 ∧
      (mainAug false true false).exitCode ≠ 0 := by
  decide

/-- C8 (amended): a path that is neither an existing file nor an existing
directory makes the entry point log an error and exit with status 1; an
existing path passes validation and the exit status is 0 exactly when the
subsequent processing completes without an uncaught exception. -/
theorem c8_cli_exit (isDir isFile ok : Bool)
    (hexists : isDir = true ∨ isFile = true) :
    (mainAug false false ok = { exitCode := 1, loggedError := true }) ∧
    ((mainAug isDir isFile ok).exitCode = 0 ↔ ok = true) := by
  rcases hexists with h | h <;> subst h <;> cases ok <;>
    first
      | exact ⟨rfl, by decide⟩
      | (cases isDir <;> exact ⟨rfl, by decide⟩)
      | (cases isFile <;> exact ⟨rfl, by decide⟩)

/-- Witness for the amended C8 at the concrete scenario of an existing
directory with successful processing. -/
theorem c8_cli_exit_witness :
    (mainAug false false true = { exitCode := 1, loggedError := true }) ∧
    ((mainAug true false true).exitCode = 0 ↔ true = true) :=
  c8_cli_exit true false true (Or.inl rfl)

/-- Whether the character sequence of `p` begins the character sequence of
`s` (the built-in byte-position-based string primitives do not reduce in the
kernel, so the character-list forms are used throughout). -/
def strStartsWith (s p : String) : Bool := p.toList.isPrefixOf s.toList

/-- Whether the character sequence of `p` ends the character sequence of
`s`. -/
def strEndsWith (s p : String) : Bool :=
  p.toList.reverse.isPrefixOf s.toList.reverse

/-- Number of characters of a string. -/
def strLen (s : String) : Nat := s.toList.length

/-- The string without its last `n` characters. -/
def strDropRight (s : String) (n : Nat) : String :=
  String.mk (s.toList.take (s.toList.length - n))

/-- The string without its first `n` characters. -/
def strDrop (s : String) (n : Nat) : String := String.mk (s.toList.drop n)

/-- Split a character list at every space, keeping empty pieces — the
behaviour of Python `str.split(" ")` with an explicit separator. -/
def splitSpaceAux : List Char → List Char → List (List Char)
  | [], acc => [acc.reverse]
  | c :: rest, acc =>
    if c == ' ' then acc.reverse :: splitSpaceAux rest []
    else splitSpaceAux rest (c :: acc)

/-- Python `str.split(" ")` on a string. -/
def splitSpace (s : String) : List String :=
  (splitSpaceAux s.toList []).map String.mk

/-- Python `str.strip()` with no argument: remove leading and trailing
whitespace (the implicit first step of `int(s)`). -/
def strTrim (s : String) : String :=
  String.mk ((s.toList.dropWhile Char.isWhitespace).reverse.dropWhile
    Char.isWhitespace).reverse

/-- `pathlib.Path.stem`: the file name without its final suffix.  Every name
this development applies it to is produced by a glob ending in `.JPG`, for
which the stem is the name without its last four characters. -/
def pyStem (name : String) : String := strDropRight name 4

/-- Whether a file name is matched by the glob pattern `image (*).JPG` of
`split_dataset.py` (case-sensitive; `*` matches any, possibly empty,
character sequence): the name decomposes as the literal prefix `image (`,
an arbitrary middle, and the literal suffix `).JPG`. -/
def globImage (name : String) : Bool :=
  strStartsWith name ("image (") && strEndsWith name (").JPG") &&
    decide (12 ≤ strLen name)

/-- Python `str.strip("()")`: remove every leading and every trailing
character that is a parenthesis. -/
def stripParens (s : String) : String :=
  String.mk (((s.toList.dropWhile fun ch => ch == '(' || ch == ')').reverse.dropWhile
    fun ch => ch == '(' || ch == ')').reverse)

/-- Whether a character list is a valid Python integer-literal digit part:
nonempty, decimal digits with optional single underscores strictly between
digits. -/
def pyDigitsOk (l : List Char) : Bool :=
  (!l.isEmpty) &&
    l.all (fun ch => ch.isDigit || ch == '_') &&
    (match l.head? with | some ch => ch.isDigit | none => false) &&
    (match l.getLast? with | some ch => ch.isDigit | none => false) &&
    noDoubleUnderscore l
where
  noDoubleUnderscore : List Char → Bool
    | c1 :: c2 :: rest =>
      !(c1 == '_' && c2 == '_') && noDoubleUnderscore (c2 :: rest)
    | _ => true

/-- Decimal value of a digit part, skipping underscore separators. -/
def digitsVal (l : List Char) : Int :=
  l.foldl (fun a ch => if ch == '_' then a else 10 * a + ((ch.toNat : Int) - 48)) 0

/-- Python `int(s)` on a string: surrounding whitespace is ignored, an
optional single sign precedes a nonempty decimal digit sequence (with
optional underscore grouping); any other string raises `ValueError`,
modelled as `none`. -/
def pyInt (s : String) : Option Int :=
  match (strTrim s).toList with
  | [] => none
  | c :: rest =>
    let body := if c == '-' || c == '+' then rest else c :: rest
    let sign : Int := if c == '-' then -1 else 1
    if pyDigitsOk body then some (sign * digitsVal body) else none

/-- The sort key of `split_dataset.py`:
`int(x.stem.split(" ")[1].strip("()"))`.  `none` models the uncaught
`IndexError` (fewer than two space-separated pieces) or `ValueError` (the
stripped token is not an integer literal) that aborts the script. -/
def fileKey (name : String) : Option Int :=
  match (splitSpace (pyStem name)).get? 1 with
  | none => none
  | some tok => pyInt (stripParens tok)

/-- Comparison of file names by their numeric sort key (only ever used on
names whose key parses; the default 0 is never reached there). -/
def keyLE (f g : String) : Prop := (fileKey f).getD 0 ≤ (fileKey g).getD 0

instance : DecidableRel keyLE := fun f g => by unfold keyLE; infer_instance

instance : IsTotal String keyLE := ⟨fun _ _ => le_total _ _⟩

instance : IsTrans String keyLE := ⟨fun _ _ _ h1 h2 => le_trans h1 h2⟩

/-- The per-class body of `split_dataset.py`: glob the class directory with
`image (*).JPG`, sort the matches by the numeric key (Python sorted is a
stable sort, modelled by stable insertion sort; computing a key raises and
aborts when it does not parse, modelled as `none`), then slice:
`validation_images = images[:25]`, `training_images = images[25:]`.  Returns
`(validation, training)`. -/
def splitClass (files : List String) : Option (List String × List String) :=
  if (files.filter globImage).all (fun f => (fileKey f).isSome) then
    some ((List.insertionSort keyLE (files.filter globImage)).take 25,
      (List.insertionSort keyLE (files.filter globImage)).drop 25)
  else none

/-- The three directories of one class after `split_dataset.py` ran on it. -/
structure ClassDirs where
  source : List String
  training : List String
  validation : List String
deriving DecidableEq

/-- Filesystem effect of the per-class split: every selected file is written
to its output directory with `shutil.copy`, which reads the source file and
creates the destination, never removing the source — so the class source
directory still holds exactly the original files. -/
def runSplitClass (files : List String) : Option ClassDirs :=
  (splitClass files).map fun p =>
    { source := files, training := p.2, validation := p.1 }

/-- Modelled from the claim wording for C10: a name of the exact shape
`image (N).JPG` where `N` is a nonempty decimal digit sequence. -/
def exactImagePattern (name : String) : Bool :=
  strStartsWith name ("image (") && strEndsWith name (").JPG") &&
    decide (13 ≤ strLen name) &&
    (let mid := strDropRight (strDrop name 7) 5
     (!mid.toList.isEmpty) && mid.toList.all Char.isDigit)

/-- A successful run of `splitClass` means every glob match had a parseable
key and the outputs are the first 25 and the rest of the key-sorted
matches. -/
theorem splitClass_eq {files v t : List String}
    (h : splitClass files = some (v, t)) :
    (files.filter globImage).all (fun f => (fileKey f).isSome) = true ∧
    v = (List.insertionSort keyLE (files.filter globImage)).take 25 ∧
    t = (List.insertionSort keyLE (files.filter globImage)).drop 25 := by
  unfold splitClass at h
  by_cases hall :
      (files.filter globImage).all (fun f => (fileKey f).isSome) = true
  · rw [if_pos hall] at h
    simp only [Option.some.injEq, Prod.mk.injEq] at h
    exact ⟨hall, h.1.symm, h.2.symm⟩
  · rw [if_neg hall] at h
    cases h

/-- C6: when the split of a class completes, with `N` the number of files
matched by the glob, `N ≥ 25` sends exactly 25 files to validation and
`N − 25` to training, `N < 25` sends all `N` to validation and none to
training; validation receives the first-indexed images (every validation key
is at most every training key); and the outputs are produced by copying, the
source directory keeping all its files. -/
theorem c6_split_counts (files v t : List String)
    (h : splitClass files = some (v, t)) :
    (25 ≤ (files.filter globImage).length →
      v.length = 25 ∧ t.length = (files.filter globImage).length - 25) ∧
    ((files.filter globImage).length < 25 →
      v.length = (files.filter globImage).length ∧ t.length = 0) ∧
    (∀ f ∈ v, ∀ g ∈ t, keyLE f g) ∧
    runSplitClass files = some ⟨files, t, v⟩ := by
  obtain ⟨hall, hv, ht⟩ := splitClass_eq h
  have hlen : (List.insertionSort keyLE (files.filter globImage)).length
      = (files.filter globImage).length := List.length_insertionSort _ _
  refine ⟨?_, ?_, ?_, ?_⟩
  · intro hN
    subst hv; subst ht
    rw [List.length_take, List.length_drop, hlen]
    omega
  · intro hN
    subst hv; subst ht
    rw [List.length_take, List.length_drop, hlen]
    omega
  · have hs : List.Sorted keyLE (v ++ t) := by
      rw [hv, ht, List.take_append_drop]
      exact List.sorted_insertionSort keyLE _
    intro f hf g hg
    exact (List.pairwise_append.mp hs).2.2 f hf g hg
  · unfold runSplitClass
    rw [h]
    rfl

/-- A class directory with two glob matches (out of numeric order) and one
non-matching file. -/
def filesSmall : List String :=
  [("image (2).JPG"), ("image (1).JPG"), ("notes.txt")]

/-- Witness for C6 on a concrete class with `N = 2 < 25`: both matched files
go to validation, training stays empty, the source is untouched. -/
theorem c6_split_counts_witness :
    (25 ≤ (filesSmall.filter globImage).length →
      ([("image (1).JPG"), ("image (2).JPG")] : List String).length = 25 ∧
      ([] : List String).length = (filesSmall.filter globImage).length - 25) ∧
    ((filesSmall.filter globImage).length < 25 →
      ([("image (1).JPG"), ("image (2).JPG")] : List String).length
          = (filesSmall.filter globImage).length ∧
      ([] : List String).length = 0) ∧
    (∀ f ∈ ([("image (1).JPG"), ("image (2).JPG")] : List String),
      ∀ g ∈ ([] : List String), keyLE f g) ∧
    runSplitClass filesSmall =
      some ⟨filesSmall, [], [("image (1).JPG"), ("image (2).JPG")]⟩ :=
  c6_split_counts filesSmall [("image (1).JPG"), ("image (2).JPG")] []
    (by decide)

/-- C10 counterexample: the file name `image (1) (a).JPG` does not match the
exact pattern `image (N).JPG` with integer `N`, yet the split selects it —
it is matched by the glob `image (*).JPG`, its key parses to 1, and it is
copied to validation. -/
theorem c10_split_counterexample :
    exactImagePattern ("image (1) (a).JPG") = false ∧
      splitClass [("image (1) (a).JPG"), ("image (2).JPG")] =
        some ([("image (1) (a).JPG"), ("image (2).JPG")], ([] : List String)) := by
  decide

/-- C10 (amended): when the split of a class completes, every copied file is
a glob match of `image (*).JPG` whose numeric key parsed; any file not
matched by the glob is copied to neither output; and the copied files are
ordered by their numeric key, not by raw name order. -/
theorem c10_split_selection (files v t : List String)
    (h : splitClass files = some (v, t)) :
    (∀ f, f ∈ v ∨ f ∈ t →
      globImage f = true ∧ (fileKey f).isSome = true) ∧
    (∀ f ∈ files, globImage f = false → f ∉ v ∧ f ∉ t) ∧
    List.Sorted keyLE (v ++ t) := by
  obtain ⟨hall, hv, ht⟩ := splitClass_eq h
  have hsort : List.Sorted keyLE (v ++ t) := by
    rw [hv, ht, List.take_append_drop]
    exact List.sorted_insertionSort keyLE _
  have hmem : ∀ f, f ∈ v ∨ f ∈ t → f ∈ files.filter globImage := by
    intro f hf
    have hft : f ∈ v ++ t := List.mem_append.mpr hf
    rw [hv, ht, List.take_append_drop] at hft
    exact (List.mem_insertionSort keyLE).mp hft
  refine ⟨?_, ?_, hsort⟩
  · intro f hf
    have hfil := hmem f hf
    exact ⟨(List.mem_filter.mp hfil).2, (List.all_eq_true.mp hall) f hfil⟩
  · intro f hf hglob
    constructor <;> intro hin
    · have hg := (List.mem_filter.mp (hmem f (Or.inl hin))).2
      rw [hglob] at hg
      cases hg
    · have hg := (List.mem_filter.mp (hmem f (Or.inr hin))).2
      rw [hglob] at hg
      cases hg

/-- A class directory where numeric and lexicographic orders differ. -/
def filesNum : List String :=
  [("image (10).JPG"), ("image (9).JPG"), ("leaf.png")]

/-- Witness for the amended C10 on a concrete class: the two glob matches
are copied in numeric key order (9 before 10, the opposite of the raw name
order) and the non-matching `leaf.png` reaches neither output. -/
theorem c10_split_selection_witness :
    (∀ f, f ∈ ([("image (9).JPG"), ("image (10).JPG")] : List String) ∨
        f ∈ ([] : List String) →
      globImage f = true ∧ (fileKey f).isSome = true) ∧
    (∀ f ∈ filesNum, globImage f = false →
      f ∉ ([("image (9).JPG"), ("image (10).JPG")] : List String) ∧
        f ∉ ([] : List String)) ∧
    List.Sorted keyLE (([("image (9).JPG"), ("image (10).JPG")] : List String)
      ++ ([] : List String)) :=
  c10_split_selection filesNum [("image (9).JPG"), ("image (10).JPG")] []
    (by decide)

/-- Python `str.title()` on a single word (all uses pass one of the fixed
lowercase transform names): first character uppercased, the rest
lowercased. -/
def pyTitle (s : String) : String :=
  match s.toList with
  | [] => s
  | c :: rest => String.mk (c.toUpper :: rest.map Char.toLower)

/-- Writing an image file into a class directory of `augmented_directory`
(`plt.imsave`): a directory is its duplicate-free list of file names, and a
write creates the name or silently overwrites an existing file of the same
name in place, so the listing gains the name only when it is new. -/
def writeFile (dir : List String) (name : String) : List String :=
  if name ∈ dir then dir else dir ++ [name]

/-- Phase one of directory mode (`Augmentation.py` lines 257–265): every
source image is copied into the class subdirectory of
`augmented_directory` named after its parent; for one class this folds the
writes of its originals into an empty directory. -/
def phase1Dir (originals : List String) : List String :=
  originals.foldl writeFile []

/-- Lines 267–272: the pre-computed target is the image count of the
largest class directory of `augmented_directory` after phase one
(`max(..., key=len)` followed by `len`), a fold of `max` over the directory
sizes. -/
def targetCount (dirs : List (List String)) : Nat :=
  dirs.foldl (fun m d => max m d.length) 0

/-- The eight augmentation types of the balancing loop, in the fixed source
order of lines 292–323. -/
def augTypes : List String :=
  [("flip"), ("rotate"), ("blur"), ("crop"), ("distortion"), ("shear"),
    ("skew"), ("contrast")]

/-- The file name `augment` writes: the f-string
`{image.stem}_{augmentation_type.title()}.JPG`. -/
def augName (stem t : String) : String :=
  stem ++ "_" ++ pyTitle t ++ ".JPG"

/-- The write events the phase-two loop body performs for one image:
component one records whether the write is guarded by the count check,
component two the file name written.  Line 290 re-saves the original
unconditionally; each of the eight `augment` calls runs only if
`len(list(save_path.iterdir())) < len_largest_directory` still holds when
its guard is evaluated. -/
def imageEvents (name : String) : List (Bool × String) :=
  (false, name) :: augTypes.map (fun t => (true, augName (pyStem name) t))

/-- Apply one write event to a class directory. -/
def applyEvent (target : Nat) (d : List String) (e : Bool × String) :
    List String :=
  if e.1 then (if d.length < target then writeFile d e.2 else d)
  else writeFile d e.2

/-- The write events of phase two for one class: each image of the class in
order re-saves its original and then attempts the eight augmentations. -/
def classEvents (originals : List String) : List (Bool × String) :=
  (originals.map imageEvents).flatten

/-- Every intermediate directory state of one class during phase two: the
state after phase one, then the state after each individual write. -/
def dirStates (target : Nat) (originals : List String) : List (List String) :=
  List.scanl (applyEvent target) (phase1Dir originals) (classEvents originals)

/-- Rewriting a name already present leaves the directory unchanged. -/
theorem writeFile_eq_of_mem {d : List String} {n : String} (h : n ∈ d) :
    writeFile d n = d := if_pos h

/-- A write grows the listing by at most one name. -/
theorem length_writeFile (d : List String) (n : String) :
    (writeFile d n).length ≤ d.length + 1 := by
  unfold writeFile
  split_ifs <;> simp

/-- A write never removes names. -/
theorem subset_writeFile (d : List String) (n : String) : d ⊆ writeFile d n := by
  unfold writeFile
  split_ifs
  · exact fun x h => h
  · exact List.subset_append_left d [n]

/-- An event never removes names. -/
theorem subset_applyEvent (t : Nat) (d : List String) (e : Bool × String) :
    d ⊆ applyEvent t d e := by
  unfold applyEvent
  split_ifs <;> first
    | exact subset_writeFile d e.2
    | exact fun x h => h

/-- A guarded write at or above the target leaves the directory unchanged:
augmentation stops as soon as the target is reached. -/
theorem applyEvent_stops {t : Nat} {d : List String} {e : Bool × String}
    (hg : e.1 = true) (hd : t ≤ d.length) : applyEvent t d e = d := by
  unfold applyEvent
  rw [hg, if_pos rfl, if_neg (by omega)]

/-- An event on a directory within the target keeps it within the target,
provided an unguarded event only rewrites a name already present. -/
theorem length_applyEvent {t : Nat} {d : List String} {e : Bool × String}
    (hd : d.length ≤ t) (h : e.1 = true ∨ e.2 ∈ d) :
    (applyEvent t d e).length ≤ t := by
  rcases h with h | h
  · unfold applyEvent
    rw [h, if_pos rfl]
    split_ifs with hlt
    · have := length_writeFile d e.2
      omega
    · exact hd
  · unfold applyEvent
    rw [writeFile_eq_of_mem h]
    split_ifs <;> exact hd

/-- The written name is in the directory after the write. -/
theorem mem_writeFile_self (d : List String) (n : String) :
    n ∈ writeFile d n := by
  unfold writeFile
  split_ifs with h
  · exact h
  · exact List.mem_append_right d (List.mem_singleton_self n)

/-- Names accumulate through a fold of writes. -/
theorem mem_foldl_writeFile (l : List String) :
    ∀ (acc : List String) (n : String),
      n ∈ acc ∨ n ∈ l → n ∈ l.foldl writeFile acc := by
  induction l with
  | nil =>
    intro acc n h
    rcases h with h | h
    · exact h
    · cases h
  | cons a l ih =>
    intro acc n h
    rw [List.foldl_cons]
    apply ih
    rcases h with h | h
    · exact Or.inl (subset_writeFile acc a h)
    · rcases List.mem_cons.mp h with rfl | h
      · exact Or.inl (mem_writeFile_self acc n)
      · exact Or.inr h

/-- Every original of a class is present after phase one. -/
theorem mem_phase1Dir {originals : List String} {n : String}
    (h : n ∈ originals) : n ∈ phase1Dir originals :=
  mem_foldl_writeFile originals [] n (Or.inr h)

/-- The fold of `max` over directory sizes bounds every member size and its
initial value. -/
theorem foldl_max_ge (d : List String) :
    ∀ (dirs : List (List String)) (init : Nat), d ∈ dirs ∨ d.length ≤ init →
      d.length ≤ dirs.foldl (fun m x => max m x.length) init := by
  intro dirs
  induction dirs with
  | nil =>
    intro init h0
    rcases h0 with h0 | h0
    · cases h0
    · exact h0
  | cons a l ih =>
    intro init h0
    rw [List.foldl_cons]
    apply ih
    rcases h0 with h0 | h0
    · rcases List.mem_cons.mp h0 with rfl | h0
      · exact Or.inr (le_max_right init d.length)
      · exact Or.inl h0
    · exact Or.inr (le_trans h0 (le_max_left init a.length))

/-- Every directory counts at most the target. -/
theorem le_targetCount {dirs : List (List String)} {d : List String}
    (h : d ∈ dirs) : d.length ≤ targetCount dirs :=
  foldl_max_ge d dirs 0 (Or.inl h)

/-- An unguarded event of a class is the re-save of one of its originals. -/
theorem classEvents_unguarded {originals : List String} {e : Bool × String}
    (he : e ∈ classEvents originals) (hf : e.1 = false) :
    e.2 ∈ originals := by
  unfold classEvents at he
  rcases List.mem_flatten.mp he with ⟨l, hl, hel⟩
  rcases List.mem_map.mp hl with ⟨name, hname, rfl⟩
  unfold imageEvents at hel
  rcases List.mem_cons.mp hel with rfl | hmap
  · exact hname
  · rcases List.mem_map.mp hmap with ⟨t, _, rfl⟩
    cases hf

/-- Invariant of the event fold: if every unguarded event rewrites a name
already present initially and the count starts within the target, every
intermediate state stays within the target. -/
theorem scanl_le_target (target : Nat) :
    ∀ (evs : List (Bool × String)) (d : List String),
      (∀ e ∈ evs, e.1 = false → e.2 ∈ d) → d.length ≤ target →
      ∀ s ∈ List.scanl (applyEvent target) d evs, s.length ≤ target := by
  intro evs
  induction evs with
  | nil =>
    intro d _ hd s hs
    rw [List.scanl_nil, List.mem_singleton] at hs
    subst hs
    exact hd
  | cons e rest ih =>
    intro d hc hd s hs
    rw [List.scanl_cons] at hs
    rcases List.mem_append.mp hs with hs | hs
    · rw [List.mem_singleton] at hs
      subst hs
      exact hd
    · apply ih (applyEvent target d e) _ _ s hs
      · intro e' he' hf
        exact subset_applyEvent target d e (hc e' (List.mem_cons_of_mem e he') hf)
      · apply length_applyEvent hd
        cases hguard : e.1 with
        | true => exact Or.inl rfl
        | false => exact Or.inr (hc e (List.mem_cons_self e rest) hguard)

/-- C1: for every class of a directory-mode run, every intermediate state of
its directory during phase two — after phase one and after each individual
write — counts at most the pre-computed target (the size of the largest
class directory after phase one); and once a directory has reached the
target, every guarded augmentation write leaves it unchanged, so the
eight-step sequence stops mid-sequence. -/
theorem c1_balance_never_exceeds (classes : List (List String))
    (originals : List String) (d : List String) (e : Bool × String)
    (hmem : originals ∈ classes) (hg : e.1 = true)
    (hd : targetCount (classes.map phase1Dir) ≤ d.length) :
    (∀ s ∈ dirStates (targetCount (classes.map phase1Dir)) originals,
        s.length ≤ targetCount (classes.map phase1Dir)) ∧
    applyEvent (targetCount (classes.map phase1Dir)) d e = d := by
  constructor
  · unfold dirStates
    apply scanl_le_target
    · intro e' he' hf
      exact mem_phase1Dir (classEvents_unguarded he' hf)
    · exact le_targetCount (List.mem_map_of_mem phase1Dir hmem)
  · exact applyEvent_stops hg hd

/-- Two classes of one and two images: the pre-computed target is 2. -/
def classesW : List (List String) := [[("a.JPG")], [("b.JPG"), ("c.JPG")]]

/-- Witness for C1 on the concrete two-class layout: every intermediate
state of the one-image class stays within the target 2, and a guarded write
on a directory already at the target does nothing. -/
theorem c1_balance_never_exceeds_witness :
    (∀ s ∈ dirStates (targetCount (classesW.map phase1Dir)) [("a.JPG")],
        s.length ≤ targetCount (classesW.map phase1Dir)) ∧
    applyEvent (targetCount (classesW.map phase1Dir))
        [("x.JPG"), ("y.JPG")] (true, ("z.JPG")) = [("x.JPG"), ("y.JPG")] :=
  c1_balance_never_exceeds classesW [("a.JPG")] [("x.JPG"), ("y.JPG")]
    (true, ("z.JPG")) (by decide) rfl (by decide)
